import Mathlib

/-!
Verification development for the System-Performance-Script repository
(file src/main.py): a shallow embedding of its bar renderer, rotating log
sink, logger setup and monitoring loop, with theorems settling the
specification claims about them.
-/

namespace SysPerf

/-! Configuration constants (src/main.py lines 10-20). -/

def LOG_FILE : String := "system_performance_stats.log"

def SAMPLING_INTERVAL_SECONDS : ℚ := 1

def MAX_LOG_FILE_SIZE_BYTES : ℕ := 5 * 1024 * 1024

def BACKUP_COUNT : ℕ := 3

def BAR_WIDTH : ℕ := 35

def FILLED_CHAR : Char := '❚'

def EMPTY_CHAR : Char := '·'

/-! Bar renderer: make_that_bar (src/main.py lines 52-59).

Percentages are modelled as rationals (the Python code uses floats; the
claims about the renderer concern clamping, width and monotonicity, which
do not depend on binary rounding).  Applying int to a non-negative value
truncates, i.e. takes the floor. -/

/-- Clamping step, src/main.py line 55: max of 0 and min of 100 and the
percentage. -/
def clampPct (p : ℚ) : ℚ := max 0 (min 100 p)

/-- Filled length, src/main.py line 56: int of width times the (clamped)
percentage divided by 100. -/
def filledLen (width : ℕ) (p : ℚ) : ℕ :=
  (⌊(width : ℚ) * clampPct p / 100⌋).toNat

/-- Bar glyphs, src/main.py line 58: the filled glyph repeated
filled_part_length times, then the empty glyph repeated the remaining
times; Python string repetition with a negative count yields the empty
string, matching truncated subtraction on ℕ. -/
def barGlyphs (width : ℕ) (p : ℚ) (fc ec : Char) : List Char :=
  List.replicate (filledLen width p) fc ++
    List.replicate (width - filledLen width p) ec

/-- Format of the (clamped, hence non-negative) percentage to one decimal
place, modelled as exact rounding of the rational to one decimal digit and
standard decimal rendering. -/
def formatPct1 (p : ℚ) : String :=
  let n : ℕ := (round (10 * p)).toNat
  Nat.repr (n / 10) ++ "." ++ Nat.repr (n % 10)

/-- Function make_that_bar (src/main.py lines 52-59): clamp, compute the
filled length, build the bracketed glyph bar and append the percentage
formatted to one decimal place and a percent sign. -/
def makeThatBar (p : ℚ) (width : ℕ) (fc ec : Char) : String :=
  "[" ++ String.mk (barGlyphs width p fc ec) ++ "] " ++
    formatPct1 (clampPct p) ++ "%"

/-! Rotating sink: logging.handlers.RotatingFileHandler.

Function setup_file_logger (src/main.py lines 38-43) configures the
standard-library RotatingFileHandler with maxBytes and backupCount.  Its
behaviour, modelled here, is: on each emit, if maxBytes is positive and
the size of the active file plus the incoming formatted record would
reach maxBytes, roll over first — when backupCount is positive the backup
numbered i becomes i+1 for i = backupCount-1 down to 1 (dropping the old
backup numbered backupCount), the active file becomes backup number 1 and
a fresh empty active file is opened; when backupCount is zero the
rollover renames nothing and the active file is simply reopened in append
mode — and then the record is written, wholly, to the (possibly fresh)
active file.

Records are abstract; sz r is the byte size of record r as written
(formatted message plus line terminator). -/

/-- The files of the sink: the active file and the backup generations,
each a list of records oldest-first; element i of backups is generation
i+1, so the head of backups is generation 1 (the newest backup) and the
last element is the oldest surviving generation. -/
structure SinkState (α : Type) where
  active : List α
  backups : List (List α)
deriving Repr, DecidableEq

/-- A freshly constructed sink: empty active file, no backups. -/
def SinkState.empty {α : Type} : SinkState α := ⟨[], []⟩

/-- Total byte size of the records of a file. -/
def fileSize {α : Type} (sz : α → ℕ) (f : List α) : ℕ := (f.map sz).sum

/-- Rollover test of RotatingFileHandler: roll over iff maxBytes is
positive and the current size plus the size of the incoming record
reaches maxBytes. -/
def shouldRollover {α : Type} (sz : α → ℕ) (maxBytes : ℕ)
    (s : SinkState α) (r : α) : Bool :=
  0 < maxBytes ∧ maxBytes ≤ fileSize sz s.active + sz r

/-- Rollover action of RotatingFileHandler: with positive backupCount K,
shift the generations (keeping the newest K of them, so the oldest is
dropped once K backups exist) and start a fresh active file; with K zero,
nothing is renamed and the active file stays as it is. -/
def doRollover {α : Type} (K : ℕ) (s : SinkState α) : SinkState α :=
  if 0 < K then ⟨[], (s.active :: s.backups).take K⟩ else s

/-- One emit: roll over if required, then append the record to the active
file. -/
def sinkAppend {α : Type} (sz : α → ℕ) (maxBytes K : ℕ)
    (s : SinkState α) (r : α) : SinkState α :=
  let s' := if shouldRollover sz maxBytes s r then doRollover K s else s
  ⟨s'.active ++ [r], s'.backups⟩

/-- The sink state after appending a chronological sequence of records to
a fresh sink. -/
def sinkRun {α : Type} (sz : α → ℕ) (maxBytes K : ℕ)
    (rs : List α) : SinkState α :=
  rs.foldl (sinkAppend sz maxBytes K) SinkState.empty

/-- The concatenation of generation K, ..., generation 1, then the active
file: the surviving history of the sink in chronological order. -/
def SinkState.flat {α : Type} (s : SinkState α) : List α :=
  s.backups.reverse.flatten ++ s.active

/-! Logger setup: setup_file_logger (src/main.py lines 23-49).

The standard-library call logging.getLogger(name) returns the single
process-wide logger registered under name, creating it (with no
handlers) on first use; addHandler unconditionally appends a handler.
The registry is modelled as a map from names to loggers, and a handler by
its configuration. -/

/-- The arguments setup_file_logger passes to RotatingFileHandler
(src/main.py lines 38-43). -/
structure HandlerCfg where
  logFile : String
  maxBytes : ℕ
  backupCount : ℕ
deriving Repr, DecidableEq

/-- A process-wide named logger: severity level, propagation flag and the
list of attached handlers, in attachment order. -/
structure Logger where
  level : ℕ
  propagate : Bool
  handlers : List HandlerCfg
deriving Repr, DecidableEq

/-- The process-wide logging registry: a map from logger names to the
loggers registered so far. -/
def Registry : Type := String → Option Logger

/-- The registry of a fresh process: no named loggers yet. -/
def emptyRegistry : Registry := fun _ => none

/-- Python logging.getLogger(name): return the registered logger,
creating a fresh one (root-inherited level modelled as 0, propagate true,
no handlers) if the name is not yet registered. -/
def getLogger (reg : Registry) (name : String) : Logger :=
  match reg name with
  | some l => l
  | none => ⟨0, true, []⟩

/-- Store a logger into the registry under a name. -/
def setLogger (reg : Registry) (name : String) (l : Logger) : Registry :=
  fun n => if n = name then some l else reg n

/-- Function setup_file_logger (src/main.py lines 23-49): fetch the
process-wide logger named PerformanceFileLogger, set its level, disable
propagation, and attach one more RotatingFileHandler. -/
def setupFileLogger (reg : Registry) (logFile : String) (logLevel : ℕ)
    (maxBytes backupCount : ℕ) : Registry :=
  let l := getLogger reg "PerformanceFileLogger"
  let l' : Logger :=
    { level := logLevel
      propagate := false
      handlers := l.handlers ++ [⟨logFile, maxBytes, backupCount⟩] }
  setLogger reg "PerformanceFileLogger" l'

/-- One call of setup_file_logger, with the arguments that vary bundled
as a handler configuration plus a level. -/
def applySetup (reg : Registry) (a : HandlerCfg × ℕ) : Registry :=
  setupFileLogger reg a.1.logFile a.2 a.1.maxBytes a.1.backupCount

/-- A record handed to Logger.info or Logger.error is passed to every
attached handler in order; each handler writes its own copy. -/
def loggerEmit (l : Logger) (msg : String) : List (HandlerCfg × String) :=
  l.handlers.map fun h => (h, msg)

/-! The monitoring loop: watch_and_log (src/main.py lines 62-129).

One run of watch_and_log is modelled by the environment data it observes
— the per-tick metric readings and terminal-width query results, and how
the loop ends (KeyboardInterrupt or a caught exception, both observed at
an iteration boundary) — and by the chronological trace of effects it
produces: stdout writes, records handed to the file logger, cpu_percent
calls, memory reads, width queries and requested sleeps. -/

/-- The interval argument of a psutil.cpu_percent call: blocking d is
interval=d (blocks for d seconds measuring over that window); sinceLast
is interval=None (non-blocking, utilization since the previous call). -/
inductive CpuMode where
  | blocking (secs : ℚ)
  | sinceLast
deriving Repr, DecidableEq

/-- The environment data one loop iteration observes: the CPU and memory
readings, the terminal width (none when os.get_terminal_size raises
OSError), and the wall-clock time the work of the iteration (metrics
read, sink write, render) took — the latter is part of the environment
only; the code never reads a clock. -/
structure TickInput where
  cpu : ℚ
  memPercent : ℚ
  memUsedBytes : ℕ
  memTotalBytes : ℕ
  termWidth : Option ℕ
  elapsed : ℚ
deriving Repr, DecidableEq

/-- One record handed to the file logger. -/
inductive LogMsg where
  | started
  | tick (cpu memPercent usedMB totalMB : ℚ)
  | stopped
  | errorRecord (e : String)
deriving Repr, DecidableEq

/-- How the while-True loop ends: the KeyboardInterrupt of the user, or
an exception caught by the generic handler. -/
inductive RunEnd where
  | interrupt
  | error (e : String)
deriving Repr, DecidableEq

/-- The log record a tick appends (src/main.py lines 79-92); memory MB
values are bytes divided by 1024 * 1024. -/
def tickMsg (t : TickInput) : LogMsg :=
  .tick t.cpu t.memPercent ((t.memUsedBytes : ℚ) / (1024 * 1024))
    ((t.memTotalBytes : ℚ) / (1024 * 1024))

/-- Terminal width with the OSError fallback of 80 (src/main.py lines
99-102). -/
def effWidth : Option ℕ → ℕ
  | some w => w
  | none => 80

/-- The terminal_display_string of a tick (src/main.py line 106). -/
def displayString (t : TickInput) : String :=
  "CPU : " ++ makeThatBar t.cpu BAR_WIDTH FILLED_CHAR EMPTY_CHAR ++
    "   RAM : " ++ makeThatBar t.memPercent BAR_WIDTH FILLED_CHAR EMPTY_CHAR

/-- The padding_spaces of a tick (src/main.py line 108): a space repeated
(terminal width minus display length minus 1) times; Python repetition
with a negative count gives the empty string, matching truncated
subtraction on ℕ. -/
def paddingSpaces (w : ℕ) (display : String) : String :=
  String.mk (List.replicate (w - display.length - 1) ' ')

/-- What one tick writes to stdout (src/main.py line 111): a carriage
return, the display string, then the padding — no newline. -/
def tickWrite (t : TickInput) : String :=
  "\r" ++ displayString t ++ paddingSpaces (effWidth t.termWidth) (displayString t)

/-- One observable effect of the run. -/
inductive Event where
  | out (s : String)
  | sinkWrite (m : LogMsg)
  | cpuRead (mode : CpuMode) (resultUsed : Bool)
  | memRead
  | widthQuery (res : Option ℕ)
  | sleepFor (secs : ℚ)
deriving Repr, DecidableEq

/-- The two startup print calls (src/main.py lines 64-65). -/
def startupStdout (interval : ℚ) : String :=
  "Alright, starting up! I\x27ll log stats every " ++ toString interval ++
    " sec to \x27" ++ LOG_FILE ++ "\x27.\n" ++
    "You\x27ll see live bars below. Press Ctrl+C to stop me.\n"

/-- Effects before the loop is entered (src/main.py lines 64-71): the
startup prints, the record that monitoring started, the single warm-up
cpu_percent call with interval=0.1 whose result is discarded, and the
time.sleep(0.1) pause. -/
def preLoopEvents (interval : ℚ) : List Event :=
  [.out (startupStdout interval), .sinkWrite .started,
   .cpuRead (.blocking (1 / 10)) false, .sleepFor (1 / 10)]

/-- Effects of one complete loop iteration (src/main.py lines 74-115):
the non-blocking cpu_percent call whose result is used, the
virtual_memory read, the tick record handed to the logger, the
terminal-width query, the terminal write, and the
time.sleep(update_interval_secs) — the full configured interval, with
nothing subtracted. -/
def tickEvents (interval : ℚ) (t : TickInput) : List Event :=
  [.cpuRead .sinceLast true, .memRead, .sinkWrite (tickMsg t),
   .widthQuery t.termWidth, .out (tickWrite t), .sleepFor interval]

/-- Effects of the exception handlers and the finally block (src/main.py
lines 117-129), in source order. -/
def endingEvents : RunEnd → List Event
  | .interrupt =>
      [.out "\n",
       .out "Okay, okay, I\x27m stopping! Log file has the history.\n",
       .sinkWrite .stopped,
       .out "\n"]
  | .error e =>
      [.out "\n",
       .out ("\nOh no, an error popped up: " ++ e ++ "\n"),
       .sinkWrite (.errorRecord ("Bummer, an error happened: " ++ e)),
       .out "\n"]

/-- The full effect trace of watch_and_log observing the given complete
iterations and then the given ending. -/
def watchAndLogEvents (interval : ℚ) (ticks : List TickInput)
    (ending : RunEnd) : List Event :=
  preLoopEvents interval ++ (ticks.map (tickEvents interval)).flatten ++
    endingEvents ending

/-- Projection of an event to its stdout text, if any. -/
def eventOut : Event → Option String
  | .out s => some s
  | _ => none

/-- Projection of an event to the record handed to the sink, if any. -/
def eventSink : Event → Option LogMsg
  | .sinkWrite m => some m
  | _ => none

/-- Projection of an event to a cpu_percent call, if any. -/
def eventCpu : Event → Option (CpuMode × Bool)
  | .cpuRead m u => some (m, u)
  | _ => none

/-- Projection of an event to a requested sleep duration, if any. -/
def eventSleep : Event → Option ℚ
  | .sleepFor s => some s
  | _ => none

/-- The records handed to the sink along a trace, in order. -/
def sinkLog (es : List Event) : List LogMsg := es.filterMap eventSink

/-- The characters written to stdout along a trace, in order. -/
def stdoutChars (es : List Event) : List Char :=
  ((es.filterMap eventOut).map String.data).flatten

/-- The cpu_percent calls along a trace, in order, each with whether its
result is used. -/
def cpuCalls (es : List Event) : List (CpuMode × Bool) := es.filterMap eventCpu

/-- The requested sleep durations along a trace, in order. -/
def sleeps (es : List Event) : List ℚ := es.filterMap eventSleep

/-- How one process run of the script ends.  Four paths exist in the
source: the psutil import check fails (src/main.py lines 134-139);
setup_file_logger raises — directory creation at line 29 or the handler
open at line 38 — before watch_and_log is ever called; watch_and_log
raises in its section before the try block (lines 64-71: the startup
prints, the started record, the warm-up metrics call, the pause), where
no handler is installed yet; or the try block is entered and the loop
runs until a KeyboardInterrupt or a caught exception ends it. -/
inductive ProcOutcome where
  | importFailure
  | setupFailure (e : String)
  | preLoopFailure (e : String)
  | run (ticks : List TickInput) (ending : RunEnd)
deriving Repr, DecidableEq

/-- The process exit code (src/main.py lines 132-150): when the import
of psutil fails the script calls sys.exit(1); an exception raised in
setup_file_logger or in the pre-try section of watch_and_log propagates
uncaught, and the interpreter exits with code 1; once the try block is
entered, both of its exception handlers return normally, so the script
falls off the end of the main block and exits with code 0 whether the
loop ended by interrupt or by a caught error. -/
def mainExitCode (interval : ℚ) : ProcOutcome → ℕ
  | .importFailure => 1
  | .setupFailure _ => 1
  | .preLoopFailure _ => 1
  | .run ticks ending =>
      let _ := watchAndLogEvents interval ticks ending
      0

/-! Helper lemmas about the bar renderer. -/

theorem clampPct_nonneg (p : ℚ) : 0 ≤ clampPct p := le_max_left 0 _

theorem clampPct_le_hundred (p : ℚ) : clampPct p ≤ 100 :=
  max_le (by norm_num) (min_le_left _ _)

theorem clampPct_mono {p q : ℚ} (h : p ≤ q) : clampPct p ≤ clampPct q :=
  max_le_max le_rfl (min_le_min le_rfl h)

theorem clampPct_of_nonpos {p : ℚ} (h : p ≤ 0) : clampPct p = 0 := by
  unfold clampPct
  rw [min_eq_right (h.trans (by norm_num)), max_eq_left h]

theorem clampPct_of_ge_hundred {p : ℚ} (h : 100 ≤ p) : clampPct p = 100 := by
  unfold clampPct
  rw [min_eq_left h, max_eq_right (by norm_num)]

theorem filledLen_le_width (width : ℕ) (p : ℚ) : filledLen width p ≤ width := by
  have hc : clampPct p ≤ 100 := clampPct_le_hundred p
  have hw : (0 : ℚ) ≤ (width : ℚ) := Nat.cast_nonneg _
  have h : (width : ℚ) * clampPct p / 100 ≤ (width : ℚ) := by
    rw [div_le_iff₀ (by norm_num : (0 : ℚ) < 100)]
    nlinarith
  unfold filledLen
  calc (⌊(width : ℚ) * clampPct p / 100⌋).toNat
      ≤ (⌊(width : ℚ)⌋).toNat := Int.toNat_le_toNat (Int.floor_le_floor h)
    _ = width := by simp

theorem filledLen_mono (width : ℕ) {p q : ℚ} (h : p ≤ q) :
    filledLen width p ≤ filledLen width q := by
  unfold filledLen
  apply Int.toNat_le_toNat
  apply Int.floor_le_floor
  have hc := clampPct_mono h
  have hw : (0 : ℚ) ≤ (width : ℚ) := Nat.cast_nonneg _
  exact (div_le_div_iff_of_pos_right (by norm_num : (0 : ℚ) < 100)).mpr
    (mul_le_mul_of_nonneg_left hc hw)

theorem barGlyphs_length_eq (width : ℕ) (p : ℚ) (fc ec : Char) :
    (barGlyphs width p fc ec).length = width := by
  have h := filledLen_le_width width p
  simp [barGlyphs]
  omega

theorem count_barGlyphs_filled (width : ℕ) (p : ℚ) {fc ec : Char} (h : fc ≠ ec) :
    (barGlyphs width p fc ec).count fc = filledLen width p := by
  simp [barGlyphs, List.count_append, List.count_replicate, h, Ne.symm h]

/-- C7: for every percent in the interval from -50 to 150 and every width,
the bracketed glyph section of the rendered bar contains exactly width
glyphs; any percent below 0 produces the same output as percent 0, and
any percent above 100 produces the same output as percent 100. -/
theorem C7_bar_width_clamping (p : ℚ) (width : ℕ) (fc ec : Char) :
    (-50 ≤ p → p ≤ 150 → (barGlyphs width p fc ec).length = width) ∧
    (p < 0 → makeThatBar p width fc ec = makeThatBar 0 width fc ec) ∧
    (100 < p → makeThatBar p width fc ec = makeThatBar 100 width fc ec) := by
  refine ⟨fun _ _ => barGlyphs_length_eq width p fc ec, fun hneg => ?_, fun hbig => ?_⟩
  · have h1 : clampPct p = 0 := clampPct_of_nonpos hneg.le
    have h2 : clampPct 0 = 0 := clampPct_of_nonpos le_rfl
    simp [makeThatBar, barGlyphs, filledLen, h1, h2]
  · have h1 : clampPct p = 100 := clampPct_of_ge_hundred hbig.le
    have h2 : clampPct 100 = 100 := clampPct_of_ge_hundred le_rfl
    simp [makeThatBar, barGlyphs, filledLen, h1, h2]

theorem C7_bar_width_clamping_witness :
    (-50 ≤ (-7 : ℚ)) ∧ ((-7 : ℚ) ≤ 150) ∧
    (barGlyphs 4 (-7) FILLED_CHAR EMPTY_CHAR).length = 4 ∧
    ((-7 : ℚ) < 0) ∧
    makeThatBar (-7) 4 FILLED_CHAR EMPTY_CHAR = makeThatBar 0 4 FILLED_CHAR EMPTY_CHAR ∧
    (100 < (150 : ℚ)) ∧
    makeThatBar 150 4 FILLED_CHAR EMPTY_CHAR = makeThatBar 100 4 FILLED_CHAR EMPTY_CHAR :=
  ⟨by norm_num, by norm_num,
   (C7_bar_width_clamping (-7) 4 FILLED_CHAR EMPTY_CHAR).1 (by norm_num) (by norm_num),
   by norm_num,
   (C7_bar_width_clamping (-7) 4 FILLED_CHAR EMPTY_CHAR).2.1 (by norm_num),
   by norm_num,
   (C7_bar_width_clamping 150 4 FILLED_CHAR EMPTY_CHAR).2.2 (by norm_num)⟩

/-- C8: for every fixed width, the number of filled glyphs in the rendered
bar is monotonically non-decreasing in the percentage. -/
theorem C8_filled_monotone (width : ℕ) (p1 p2 : ℚ) (h : p1 ≤ p2) :
    (barGlyphs width p1 FILLED_CHAR EMPTY_CHAR).count FILLED_CHAR ≤
      (barGlyphs width p2 FILLED_CHAR EMPTY_CHAR).count FILLED_CHAR := by
  have hne : FILLED_CHAR ≠ EMPTY_CHAR := by decide
  rw [count_barGlyphs_filled width p1 hne, count_barGlyphs_filled width p2 hne]
  exact filledLen_mono width h

theorem C8_filled_monotone_witness :
    ((10 : ℚ) ≤ 60) ∧
    (barGlyphs 4 10 FILLED_CHAR EMPTY_CHAR).count FILLED_CHAR ≤
      (barGlyphs 4 60 FILLED_CHAR EMPTY_CHAR).count FILLED_CHAR :=
  ⟨by norm_num, C8_filled_monotone 4 10 60 (by norm_num)⟩

/-! Helper lemmas about the rotating sink. -/

theorem sinkAppend_backups_le {α : Type} (sz : α → ℕ) (maxBytes K : ℕ)
    (s : SinkState α) (r : α) (h : s.backups.length ≤ K) :
    (sinkAppend sz maxBytes K s r).backups.length ≤ K := by
  unfold sinkAppend doRollover
  by_cases hr : shouldRollover sz maxBytes s r
  · by_cases hK : 0 < K
    · simp [hr, hK, List.length_take]
    · simp [hr, hK]
      exact h
  · simp [hr]
    exact h

theorem foldl_backups_le {α : Type} (sz : α → ℕ) (maxBytes K : ℕ)
    (rs : List α) :
    ∀ s : SinkState α, s.backups.length ≤ K →
      (rs.foldl (sinkAppend sz maxBytes K) s).backups.length ≤ K := by
  induction rs with
  | nil => exact fun s h => h
  | cons r rest ih =>
      exact fun s h => ih _ (sinkAppend_backups_le sz maxBytes K s r h)

theorem suffix_append_right_list {α : Type} {l₁ l₂ : List α} (l₃ : List α)
    (h : l₁ <:+ l₂) : l₁ ++ l₃ <:+ l₂ ++ l₃ := by
  obtain ⟨t, rfl⟩ := h
  exact ⟨t, (List.append_assoc _ _ _).symm⟩

theorem doRollover_flat_suffix {α : Type} (K : ℕ) (s : SinkState α) :
    (doRollover K s).flat <:+ s.flat := by
  unfold doRollover
  by_cases hK : 0 < K
  · simp only [hK, if_true]
    show ((s.active :: s.backups).take K).reverse.flatten ++ [] <:+ s.flat
    rw [List.append_nil]
    have hdecomp :
        (s.active :: s.backups).reverse.flatten =
          ((s.active :: s.backups).drop K).reverse.flatten ++
            ((s.active :: s.backups).take K).reverse.flatten := by
      conv_lhs => rw [← List.take_append_drop K (s.active :: s.backups)]
      rw [List.reverse_append, List.flatten_append]
    have hflat : (s.active :: s.backups).reverse.flatten = s.flat := by
      simp [SinkState.flat]
    rw [← hflat]
    exact ⟨_, hdecomp.symm⟩
  · simp only [hK, if_false]
    exact List.suffix_refl _

theorem sinkAppend_flat_suffix {α : Type} (sz : α → ℕ) (maxBytes K : ℕ)
    (s : SinkState α) (r : α) :
    (sinkAppend sz maxBytes K s r).flat <:+ s.flat ++ [r] := by
  unfold sinkAppend
  by_cases hr : shouldRollover sz maxBytes s r
  · simp only [hr, if_true]
    show (doRollover K s).backups.reverse.flatten ++ ((doRollover K s).active ++ [r])
      <:+ s.flat ++ [r]
    rw [← List.append_assoc]
    exact suffix_append_right_list [r] (doRollover_flat_suffix K s)
  · simp only [hr, if_false]
    show s.backups.reverse.flatten ++ (s.active ++ [r]) <:+ s.flat ++ [r]
    rw [← List.append_assoc]
    exact List.suffix_refl _

theorem foldl_flat_suffix {α : Type} (sz : α → ℕ) (maxBytes K : ℕ)
    (rs : List α) :
    ∀ s : SinkState α,
      (rs.foldl (sinkAppend sz maxBytes K) s).flat <:+ s.flat ++ rs := by
  induction rs with
  | nil => intro s; simp
  | cons r rest ih =>
      intro s
      have h1 := ih (sinkAppend sz maxBytes K s r)
      have h2 := suffix_append_right_list rest
        (sinkAppend_flat_suffix sz maxBytes K s r)
      rw [List.append_assoc, List.singleton_append] at h2
      exact h1.trans h2

theorem countP_flatten_mem_eq_one {α : Type} [DecidableEq α] (r : α) :
    ∀ L : List (List α), L.flatten.Nodup → r ∈ L.flatten →
      (L.countP fun f => decide (r ∈ f)) = 1 := by
  intro L
  induction L with
  | nil => simp
  | cons f rest ih =>
      intro hnd hr
      rw [List.flatten_cons] at hnd hr
      rw [List.nodup_append] at hnd
      obtain ⟨_, hrest, hdisj⟩ := hnd
      rw [List.countP_cons]
      rcases List.mem_append.mp hr with h | h
      · have h0 : (rest.countP fun g => decide (r ∈ g)) = 0 := by
          rw [List.countP_eq_zero]
          intro g hg
          simp only [decide_eq_true_eq]
          exact fun hrg => hdisj h (List.mem_flatten.mpr ⟨g, hg, hrg⟩)
        simp [h0, h]
      · have h1 := ih hrest h
        have hnf : r ∉ f := fun hrf => hdisj hrf h
        simp [h1, hnf]

/-- C1: for every configuration with the given backup count K, after any
sequence of appends the sink has at most K backup files; every rotation
makes the rotated-out active content generation 1 (the newest backup);
and when a rotation occurs while K backups already exist, the oldest
generation (number K) is discarded. -/
theorem C1_rotation_invariant {α : Type} (sz : α → ℕ) (maxBytes K : ℕ)
    (rs : List α) :
    (sinkRun sz maxBytes K rs).backups.length ≤ K ∧
    (∀ s : SinkState α, 0 < K →
      (doRollover K s).backups.head? = some s.active) ∧
    ∀ s : SinkState α, 0 < K → s.backups.length = K →
      (doRollover K s).backups = s.active :: s.backups.dropLast := by
  refine ⟨?_, ?_, ?_⟩
  · exact foldl_backups_le sz maxBytes K rs SinkState.empty
      (by simp [SinkState.empty])
  · intro s hK
    unfold doRollover
    simp only [hK, if_true]
    cases K with
    | zero => exact absurd hK (lt_irrefl 0)
    | succ k => rw [List.take_succ_cons]; rfl
  · intro s hK hlen
    unfold doRollover
    simp only [hK, if_true]
    cases K with
    | zero => exact absurd hK (lt_irrefl 0)
    | succ k =>
        rw [List.take_succ_cons, List.dropLast_eq_take, hlen]
        norm_num

theorem C1_rotation_invariant_witness :
    (sinkRun (fun _ => 3) 5 2 [0, 1, 2, 3, 4]).backups.length ≤ 2 ∧
    (0 : ℕ) < 2 ∧
    (doRollover 2 (⟨[9], [[7], [5]]⟩ : SinkState ℕ)).backups.head? = some [9] ∧
    (⟨[9], [[7], [5]]⟩ : SinkState ℕ).backups.length = 2 ∧
    (doRollover 2 (⟨[9], [[7], [5]]⟩ : SinkState ℕ)).backups =
      [9] :: [[7], [5]].dropLast :=
  ⟨(C1_rotation_invariant (fun _ => 3) 5 2 [0, 1, 2, 3, 4]).1,
   by decide,
   (C1_rotation_invariant (fun _ => 3) 5 2 [0, 1, 2, 3, 4]).2.1
     ⟨[9], [[7], [5]]⟩ (by decide),
   by decide,
   (C1_rotation_invariant (fun _ => 3) 5 2 [0, 1, 2, 3, 4]).2.2
     ⟨[9], [[7], [5]]⟩ (by decide) (by decide)⟩

/-- C2: the concatenation of generation K, ..., generation 1, then the
active file is a suffix of the chronological append sequence (the whole
sequence up to the discarded oldest prefix, with no duplicates and no
gaps), and every surviving record lies wholly within exactly one file. -/
theorem C2_round_trip {α : Type} [DecidableEq α] (sz : α → ℕ)
    (maxBytes K : ℕ) (rs : List α) :
    (sinkRun sz maxBytes K rs).flat <:+ rs ∧
    (rs.Nodup →
      (sinkRun sz maxBytes K rs).flat.Nodup ∧
      ∀ r ∈ (sinkRun sz maxBytes K rs).flat,
        (((sinkRun sz maxBytes K rs).backups ++
            [(sinkRun sz maxBytes K rs).active]).countP
          fun f => decide (r ∈ f)) = 1) := by
  have hsuf : (sinkRun sz maxBytes K rs).flat <:+ rs := by
    have h := foldl_flat_suffix sz maxBytes K rs SinkState.empty
    simpa [sinkRun, SinkState.empty, SinkState.flat] using h
  refine ⟨hsuf, fun hnd => ?_⟩
  have hfn : (sinkRun sz maxBytes K rs).flat.Nodup := hnd.sublist hsuf.sublist
  refine ⟨hfn, fun r hr => ?_⟩
  set s := sinkRun sz maxBytes K rs with hs
  have hflat : s.flat = (s.backups.reverse ++ [s.active]).flatten := by
    simp [SinkState.flat]
  have h1 : ((s.backups.reverse ++ [s.active]).countP
      fun f => decide (r ∈ f)) = 1 := by
    apply countP_flatten_mem_eq_one
    · rw [← hflat]; exact hfn
    · rw [← hflat]; exact hr
  have hperm : (s.backups ++ [s.active]).Perm (s.backups.reverse ++ [s.active]) :=
    (s.backups.reverse_perm.symm).append_right _
  rw [hperm.countP_eq]
  exact h1

theorem C2_round_trip_witness :
    (sinkRun (fun _ => 3) 5 2 [0, 1, 2, 3, 4]).flat <:+ [0, 1, 2, 3, 4] ∧
    ([0, 1, 2, 3, 4] : List ℕ).Nodup ∧
    (2 : ℕ) ∈ (sinkRun (fun _ => 3) 5 2 [0, 1, 2, 3, 4]).flat ∧
    (((sinkRun (fun _ => 3) 5 2 [0, 1, 2, 3, 4]).backups ++
        [(sinkRun (fun _ => 3) 5 2 [0, 1, 2, 3, 4]).active]).countP
      fun f => decide ((2 : ℕ) ∈ f)) = 1 :=
  ⟨(C2_round_trip (fun _ => 3) 5 2 [0, 1, 2, 3, 4]).1,
   by decide, by decide,
   ((C2_round_trip (fun _ => 3) 5 2 [0, 1, 2, 3, 4]).2 (by decide)).2 2 (by decide)⟩

/-! Helper lemmas about the run trace. -/

theorem sinkLog_append (A B : List Event) :
    sinkLog (A ++ B) = sinkLog A ++ sinkLog B := by
  simp [sinkLog, List.filterMap_append]

theorem stdoutChars_append (A B : List Event) :
    stdoutChars (A ++ B) = stdoutChars A ++ stdoutChars B := by
  simp [stdoutChars, List.filterMap_append]

theorem sleeps_loop (interval : ℚ) (ticks : List TickInput) :
    sleeps ((ticks.map (tickEvents interval)).flatten) =
      ticks.map fun _ => interval := by
  induction ticks with
  | nil => rfl
  | cons t rest ih =>
      simp only [List.map_cons, List.flatten_cons, sleeps, List.filterMap_append]
      simp only [sleeps] at ih
      rw [ih]
      rfl

theorem cpuCalls_loop (interval : ℚ) (ticks : List TickInput) :
    cpuCalls ((ticks.map (tickEvents interval)).flatten) =
      ticks.map fun _ => (CpuMode.sinceLast, true) := by
  induction ticks with
  | nil => rfl
  | cons t rest ih =>
      simp only [List.map_cons, List.flatten_cons, cpuCalls, List.filterMap_append]
      simp only [cpuCalls] at ih
      rw [ih]
      rfl

theorem sinkLog_loop (interval : ℚ) (ticks : List TickInput) :
    sinkLog ((ticks.map (tickEvents interval)).flatten) =
      ticks.map tickMsg := by
  induction ticks with
  | nil => rfl
  | cons t rest ih =>
      simp only [List.map_cons, List.flatten_cons, sinkLog, List.filterMap_append]
      simp only [sinkLog] at ih
      rw [ih]
      rfl

/-- C3 fails on the code: the loop sleeps the full configured interval,
not the interval minus the elapsed tick time floored at zero.  With
interval 1 and a tick whose work took half a second, the requested sleep
is 1, not one half. -/
theorem C3_sleep_counterexample :
    sleeps (tickEvents 1 ⟨0, 0, 0, 0, some 80, 1 / 2⟩) ≠
      [max 0 (1 - (⟨0, 0, 0, 0, some 80, 1 / 2⟩ : TickInput).elapsed)] := by
  have h1 : sleeps (tickEvents 1 ⟨0, 0, 0, 0, some 80, 1 / 2⟩) = [1] := by
    simp [sleeps, tickEvents, eventSleep]
  rw [h1]
  simp only [ne_eq, List.cons.injEq, and_true]
  norm_num

/-- C3 amended: in every iteration of the running loop, the driver
requests a sleep of exactly the configured interval, independent of the
wall-clock time already spent in the tick. -/
theorem C3_sleep_full_interval (interval : ℚ) (ticks : List TickInput)
    (ending : RunEnd) :
    sleeps ((ticks.map (tickEvents interval)).flatten) =
      ticks.map (fun _ => interval) ∧
    sleeps (watchAndLogEvents interval ticks ending) =
      (1 / 10) :: ticks.map fun _ => interval := by
  refine ⟨sleeps_loop interval ticks, ?_⟩
  unfold watchAndLogEvents
  simp only [sleeps, List.filterMap_append]
  show sleeps (preLoopEvents interval) ++
    (sleeps ((ticks.map (tickEvents interval)).flatten) ++ sleeps (endingEvents ending)) =
      (1 / 10) :: ticks.map fun _ => interval
  rw [sleeps_loop interval ticks]
  have h1 : sleeps (preLoopEvents interval) = [1 / 10] := rfl
  have h2 : sleeps (endingEvents ending) = [] := by
    cases ending <;> rfl
  rw [h1, h2, List.append_nil]
  rfl

/-- C4: before the steady-state loop the driver makes exactly one
throwaway warm-up cpu_percent call (result discarded), followed by a
pause of at least one tenth of a second, and every cpu_percent call in
the loop is the non-blocking interval=None form whose result is used. -/
theorem C4_warmup_protocol (interval : ℚ) (ticks : List TickInput) :
    cpuCalls (preLoopEvents interval) = [(.blocking (1 / 10), false)] ∧
    (∃ pre s, preLoopEvents interval =
        pre ++ [.cpuRead (.blocking (1 / 10)) false, .sleepFor s] ∧
      cpuCalls pre = [] ∧ 1 / 10 ≤ s) ∧
    cpuCalls ((ticks.map (tickEvents interval)).flatten) =
      ticks.map fun _ => (.sinceLast, true) := by
  refine ⟨rfl, ⟨[.out (startupStdout interval), .sinkWrite .started], 1 / 10,
    rfl, rfl, le_refl _⟩, cpuCalls_loop interval ticks⟩

/-- C5 fails on the code: an exception caught during the running loop is
logged and both handlers return normally, so the process still exits
with code 0 — the error path during Running does terminate with the
success code. -/
theorem C5_error_exit_counterexample :
    mainExitCode 1 (.run [] (.error "boom")) = 0 := rfl

/-- C5 amended: the process exits with code 0 when stopped by the
interrupt signal, and also with code 0 when an unrecoverable error
during Running is caught by the loop handler; failures before the loop
body is protected — the psutil import check, an exception in
setup_file_logger, or an exception in the pre-try section of
watch_and_log such as the warm-up metrics call — exit non-zero (code
1). -/
theorem C5_exit_codes (interval : ℚ) (ticks : List TickInput)
    (e : String) :
    mainExitCode interval (.run ticks .interrupt) = 0 ∧
    mainExitCode interval (.run ticks (.error e)) = 0 ∧
    mainExitCode interval .importFailure = 1 ∧
    mainExitCode interval (.setupFailure e) = 1 ∧
    mainExitCode interval (.preLoopFailure e) = 1 :=
  ⟨rfl, rfl, rfl, rfl, rfl⟩

/-- C6: when an interrupt arrives during the running loop, exactly one
stopped record is appended to the sink, it comes after every sampled
record (it is the last sink record), and the terminal output ends with a
newline. -/
theorem C6_interrupt_shutdown (interval : ℚ) (ticks : List TickInput) :
    sinkLog (watchAndLogEvents interval ticks .interrupt) =
      (.started :: ticks.map tickMsg) ++ [.stopped] ∧
    (sinkLog (watchAndLogEvents interval ticks .interrupt)).count .stopped = 1 ∧
    (stdoutChars (watchAndLogEvents interval ticks .interrupt)).getLast? =
      some '\n' := by
  have hlog : sinkLog (watchAndLogEvents interval ticks .interrupt) =
      (.started :: ticks.map tickMsg) ++ [.stopped] := by
    unfold watchAndLogEvents
    rw [sinkLog_append, sinkLog_append, sinkLog_loop]
    rfl
  refine ⟨hlog, ?_, ?_⟩
  · rw [hlog]
    rw [List.count_append, List.count_cons]
    have hticks : (ticks.map tickMsg).count LogMsg.stopped = 0 := by
      rw [List.count_eq_zero]
      intro hm
      obtain ⟨t, _, ht⟩ := List.mem_map.mp hm
      simp [tickMsg] at ht
    simp [hticks]
  · unfold watchAndLogEvents
    rw [stdoutChars_append]
    have hend : stdoutChars (endingEvents .interrupt) =
        ('\n' :: "Okay, okay, I\x27m stopping! Log file has the history.\n".data)
          ++ ['\n'] := rfl
    rw [hend, ← List.append_assoc]
    exact List.getLast?_concat _

/-! Helper lemmas about the terminal write of a tick. -/

theorem noNl_toDigitsCore (f : ℕ) :
    ∀ (n : ℕ) (acc : List Char), '\n' ∉ acc →
      '\n' ∉ Nat.toDigitsCore 10 f n acc := by
  induction f with
  | zero => exact fun n acc h => h
  | succ f ih =>
      intro n acc h
      have hd : Nat.digitChar (n % 10) ≠ '\n' := by
        have hlt : n % 10 < 10 := Nat.mod_lt _ (by norm_num)
        have hall : ∀ d, d < 10 → Nat.digitChar d ≠ '\n' := by decide
        exact hall _ hlt
      have hacc : '\n' ∉ Nat.digitChar (n % 10) :: acc := by
        intro hmem
        rcases List.mem_cons.mp hmem with h1 | h1
        · exact hd h1.symm
        · exact h h1
      have hstep : Nat.toDigitsCore 10 (f + 1) n acc =
          if n / 10 = 0 then Nat.digitChar (n % 10) :: acc
          else Nat.toDigitsCore 10 f (n / 10) (Nat.digitChar (n % 10) :: acc) := rfl
      rw [hstep]
      by_cases h0 : n / 10 = 0
      · rw [if_pos h0]; exact hacc
      · rw [if_neg h0]; exact ih _ _ hacc

theorem noNl_natRepr (n : ℕ) : '\n' ∉ (Nat.repr n).data := by
  show '\n' ∉ Nat.toDigitsCore 10 (n + 1) n []
  exact noNl_toDigitsCore (n + 1) n [] (by simp)

theorem noNl_formatPct1 (p : ℚ) : '\n' ∉ (formatPct1 p).data := by
  have key : ∀ m : ℕ, '\n' ∉ (Nat.repr (m / 10) ++ "." ++ Nat.repr (m % 10)).data := by
    intro m hmem
    rw [String.data_append, String.data_append] at hmem
    rcases List.mem_append.mp hmem with h | h
    · rcases List.mem_append.mp h with h1 | h1
      · exact noNl_natRepr _ h1
      · exact absurd h1 (by decide)
    · exact noNl_natRepr _ h
  exact key _

theorem noNl_makeThatBar (p : ℚ) (width : ℕ) {fc ec : Char}
    (hfc : fc ≠ '\n') (hec : ec ≠ '\n') :
    '\n' ∉ (makeThatBar p width fc ec).data := by
  unfold makeThatBar
  intro hmem
  rw [String.data_append, String.data_append, String.data_append,
    String.data_append] at hmem
  rcases List.mem_append.mp hmem with h | h
  · rcases List.mem_append.mp h with h | h
    · rcases List.mem_append.mp h with h | h
      · rcases List.mem_append.mp h with h | h
        · exact absurd h (by decide)
        · have hg : '\n' ∈ barGlyphs width p fc ec := h
          rcases List.mem_append.mp hg with h1 | h1
          · exact hfc (List.eq_of_mem_replicate h1).symm
          · exact hec (List.eq_of_mem_replicate h1).symm
      · exact absurd h (by decide)
    · exact noNl_formatPct1 _ h
  · exact absurd h (by decide)

theorem noNl_displayString (t : TickInput) : '\n' ∉ (displayString t).data := by
  unfold displayString
  intro hmem
  rw [String.data_append, String.data_append, String.data_append] at hmem
  have hne1 : FILLED_CHAR ≠ '\n' := by decide
  have hne2 : EMPTY_CHAR ≠ '\n' := by decide
  rcases List.mem_append.mp hmem with h | h
  · rcases List.mem_append.mp h with h | h
    · rcases List.mem_append.mp h with h | h
      · exact absurd h (by decide)
      · exact noNl_makeThatBar _ _ hne1 hne2 h
    · exact absurd h (by decide)
  · exact noNl_makeThatBar _ _ hne1 hne2 h

theorem tickWrite_data_eq (t : TickInput) :
    (tickWrite t).data =
      '\r' :: ((displayString t).data ++
        (paddingSpaces (effWidth t.termWidth) (displayString t)).data) := by
  unfold tickWrite
  rw [String.data_append, String.data_append]
  rfl

theorem noNl_tickWrite (t : TickInput) : '\n' ∉ (tickWrite t).data := by
  rw [tickWrite_data_eq]
  intro hmem
  rcases List.mem_cons.mp hmem with h | h
  · exact absurd h (by decide)
  · rcases List.mem_append.mp h with h1 | h1
    · exact noNl_displayString t h1
    · have hsp : '\n' ∈ List.replicate
          (effWidth t.termWidth - (displayString t).length - 1) ' ' := h1
      exact absurd (List.eq_of_mem_replicate hsp) (by decide)

theorem tickWrite_length_eq (t : TickInput) :
    (tickWrite t).length =
      1 + max (displayString t).length (effWidth t.termWidth - 1) := by
  unfold tickWrite paddingSpaces
  rw [String.length_append, String.length_append]
  have h1 : ("\r" : String).length = 1 := rfl
  have h2 : (String.mk (List.replicate
      (effWidth t.termWidth - (displayString t).length - 1) ' ')).length =
        effWidth t.termWidth - (displayString t).length - 1 :=
    List.length_replicate _ _
  rw [h1, h2]
  omega

theorem displayString_length_eq (t : TickInput) :
    (displayString t).length =
      93 + (formatPct1 (clampPct t.cpu)).length +
        (formatPct1 (clampPct t.memPercent)).length := by
  unfold displayString makeThatBar
  simp only [String.length_append]
  have hb1 : (String.mk (barGlyphs BAR_WIDTH t.cpu FILLED_CHAR EMPTY_CHAR)).length = 35 := by
    show (barGlyphs BAR_WIDTH t.cpu FILLED_CHAR EMPTY_CHAR).length = 35
    rw [barGlyphs_length_eq]
    rfl
  have hb2 : (String.mk (barGlyphs BAR_WIDTH t.memPercent FILLED_CHAR EMPTY_CHAR)).length = 35 := by
    show (barGlyphs BAR_WIDTH t.memPercent FILLED_CHAR EMPTY_CHAR).length = 35
    rw [barGlyphs_length_eq]
    rfl
  have hL1 : ("CPU : " : String).length = 6 := rfl
  have hL2 : ("   RAM : " : String).length = 9 := rfl
  have hL3 : ("[" : String).length = 1 := rfl
  have hL4 : ("] " : String).length = 2 := rfl
  have hL5 : ("%" : String).length = 1 := rfl
  rw [hb1, hb2, hL1, hL2, hL3, hL4, hL5]
  omega

theorem formatPct1_clamp_hundred : formatPct1 (clampPct 100) = "100.0" := by
  norm_num [formatPct1, clampPct, round_eq]
  rfl

theorem formatPct1_clamp_zero : formatPct1 (clampPct 0) = "0.0" := by
  norm_num [formatPct1, clampPct, round_eq]
  rfl

theorem displayString_len_hundred (u v : ℕ) (w : Option ℕ) (e : ℚ) :
    (displayString ⟨100, 100, u, v, w, e⟩).length = 103 := by
  rw [displayString_length_eq]
  show 93 + (formatPct1 (clampPct 100)).length +
    (formatPct1 (clampPct 100)).length = 103
  rw [formatPct1_clamp_hundred]
  rfl

theorem displayString_len_zero (u v : ℕ) (w : Option ℕ) (e : ℚ) :
    (displayString ⟨0, 0, u, v, w, e⟩).length = 99 := by
  rw [displayString_length_eq]
  show 93 + (formatPct1 (clampPct 0)).length +
    (formatPct1 (clampPct 0)).length = 99
  rw [formatPct1_clamp_zero]
  rfl

/-- C9 fails on the code: the padding is computed from the terminal
width, not from the content of the previous tick, so when the display
string shrinks while exceeding the terminal width the new write is
shorter than the previous one and does not cover it.  With terminal
width 100, a tick at 100 percent writes 104 characters but the following
tick at 0 percent writes only 100. -/
theorem C9_erase_counterexample :
    ¬ ((tickWrite (⟨0, 0, 0, 0, some 100, 0⟩ : TickInput)).length ≥
       (tickWrite (⟨100, 100, 0, 0, some 100, 0⟩ : TickInput)).length) := by
  have hA : (tickWrite (⟨100, 100, 0, 0, some 100, 0⟩ : TickInput)).length = 104 := by
    rw [tickWrite_length_eq, displayString_len_hundred]
    show 1 + max 103 (100 - 1) = 104
    norm_num
  have hB : (tickWrite (⟨0, 0, 0, 0, some 100, 0⟩ : TickInput)).length = 100 := by
    rw [tickWrite_length_eq, displayString_len_zero]
    show 1 + max 99 (100 - 1) = 100
    norm_num
  rw [hA, hB]
  omega

/-- C9 amended: every tick write is a carriage return followed by the
display string and the padding, contains no newline, and has total
length 1 plus the maximum of the display length and the terminal width
minus one; consequently it covers the previous write whenever the
previous display string fit within the terminal width minus one and the
terminal width is unchanged. -/
theorem C9_terminal_overwrite (t : TickInput) :
    (tickWrite t).data =
      '\r' :: ((displayString t).data ++
        (paddingSpaces (effWidth t.termWidth) (displayString t)).data) ∧
    '\n' ∉ (tickWrite t).data ∧
    (tickWrite t).length =
      1 + max (displayString t).length (effWidth t.termWidth - 1) ∧
    ∀ tprev : TickInput,
      effWidth tprev.termWidth = effWidth t.termWidth →
      (displayString tprev).length ≤ effWidth t.termWidth - 1 →
      (tickWrite tprev).length ≤ (tickWrite t).length := by
  refine ⟨tickWrite_data_eq t, noNl_tickWrite t, tickWrite_length_eq t, ?_⟩
  intro tp hw hfit
  rw [tickWrite_length_eq, tickWrite_length_eq, hw]
  omega

theorem C9_terminal_overwrite_witness :
    effWidth (⟨0, 0, 0, 0, some 120, 0⟩ : TickInput).termWidth =
      effWidth (⟨100, 100, 0, 0, some 120, 0⟩ : TickInput).termWidth ∧
    (displayString (⟨0, 0, 0, 0, some 120, 0⟩ : TickInput)).length ≤
      effWidth (⟨100, 100, 0, 0, some 120, 0⟩ : TickInput).termWidth - 1 ∧
    (tickWrite (⟨0, 0, 0, 0, some 120, 0⟩ : TickInput)).length ≤
      (tickWrite (⟨100, 100, 0, 0, some 120, 0⟩ : TickInput)).length := by
  have hfit : (displayString (⟨0, 0, 0, 0, some 120, 0⟩ : TickInput)).length ≤
      effWidth (⟨100, 100, 0, 0, some 120, 0⟩ : TickInput).termWidth - 1 := by
    rw [displayString_len_zero]
    show (99 : ℕ) ≤ 120 - 1
    norm_num
  exact ⟨rfl, hfit,
    (C9_terminal_overwrite (⟨100, 100, 0, 0, some 120, 0⟩ : TickInput)).2.2.2
      (⟨0, 0, 0, 0, some 120, 0⟩ : TickInput) rfl hfit⟩

/-! Helper lemmas about the logger registry. -/

theorem getLogger_setupFileLogger (reg : Registry) (lf : String) (lvl mb bc : ℕ) :
    getLogger (setupFileLogger reg lf lvl mb bc) "PerformanceFileLogger" =
      { level := lvl
        propagate := false
        handlers := (getLogger reg "PerformanceFileLogger").handlers ++
          [⟨lf, mb, bc⟩] } := by
  unfold setupFileLogger setLogger getLogger
  simp

theorem foldl_applySetup_handlers (args : List (HandlerCfg × ℕ)) :
    ∀ reg : Registry,
      (getLogger (args.foldl applySetup reg) "PerformanceFileLogger").handlers.length =
        (getLogger reg "PerformanceFileLogger").handlers.length + args.length := by
  induction args with
  | nil => intro reg; simp
  | cons a rest ih =>
      intro reg
      rw [List.foldl_cons, ih]
      show (getLogger (setupFileLogger reg a.1.logFile a.2 a.1.maxBytes a.1.backupCount)
        "PerformanceFileLogger").handlers.length + rest.length = _
      rw [getLogger_setupFileLogger]
      simp
      omega

theorem foldl_applySetup_isSome (args : List (HandlerCfg × ℕ)) :
    ∀ reg : Registry, args ≠ [] →
      ((args.foldl applySetup reg) "PerformanceFileLogger").isSome = true := by
  induction args with
  | nil => intro _ h; exact absurd rfl h
  | cons a rest ih =>
      intro reg _
      rcases rest with _ | ⟨b, rest⟩
      · show ((setupFileLogger reg a.1.logFile a.2 a.1.maxBytes a.1.backupCount)
          "PerformanceFileLogger").isSome = true
        unfold setupFileLogger setLogger
        simp
      · exact ih _ (by simp)

/-- C10: setup_file_logger is not idempotent — after n calls (with any
arguments, n at least 1) the single process-wide logger named
PerformanceFileLogger is registered and carries n rotating file
handlers, so a record appended afterwards is written once per handler,
n times. -/
theorem C10_not_idempotent (args : List (HandlerCfg × ℕ)) (msg : String)
    (h : 1 ≤ args.length) :
    (getLogger (args.foldl applySetup emptyRegistry)
      "PerformanceFileLogger").handlers.length = args.length ∧
    ((args.foldl applySetup emptyRegistry) "PerformanceFileLogger").isSome = true ∧
    (loggerEmit (getLogger (args.foldl applySetup emptyRegistry)
      "PerformanceFileLogger") msg).length = args.length := by
  have hlen : (getLogger (args.foldl applySetup emptyRegistry)
      "PerformanceFileLogger").handlers.length = args.length := by
    rw [foldl_applySetup_handlers]
    show (getLogger emptyRegistry "PerformanceFileLogger").handlers.length +
      args.length = args.length
    simp [getLogger, emptyRegistry]
  refine ⟨hlen, ?_, ?_⟩
  · apply foldl_applySetup_isSome
    intro hnil
    rw [hnil] at h
    exact absurd h (by simp)
  · rw [loggerEmit, List.length_map]
    exact hlen

theorem C10_not_idempotent_witness :
    1 ≤ ([(⟨"a.log", 5, 2⟩, 20), (⟨"b.log", 7, 1⟩, 30)] :
      List (HandlerCfg × ℕ)).length ∧
    (getLogger (([(⟨"a.log", 5, 2⟩, 20), (⟨"b.log", 7, 1⟩, 30)] :
        List (HandlerCfg × ℕ)).foldl applySetup emptyRegistry)
      "PerformanceFileLogger").handlers.length = 2 ∧
    (loggerEmit (getLogger (([(⟨"a.log", 5, 2⟩, 20), (⟨"b.log", 7, 1⟩, 30)] :
        List (HandlerCfg × ℕ)).foldl applySetup emptyRegistry)
      "PerformanceFileLogger") "Tick").length = 2 :=
  ⟨by norm_num,
   (C10_not_idempotent [(⟨"a.log", 5, 2⟩, 20), (⟨"b.log", 7, 1⟩, 30)]
     "Tick" (by norm_num)).1,
   (C10_not_idempotent [(⟨"a.log", 5, 2⟩, 20), (⟨"b.log", 7, 1⟩, 30)]
     "Tick" (by norm_num)).2.2⟩

end SysPerf
